import Mathlib

/-!
Shallow embedding of the Lavalink client of PancyStudios/PancyBotGo
(src/pkg/lavalink/lavalink.go): the guild player registry and state
machine, the REST control plane preconditions, the progress-ticker
registry, and the voice-credential handlers.

Modelling conventions:
* Go maps become functions `String → Option _`; Go slices become `List`.
* The HTTP transport is modelled as succeeding whenever the local
  precondition of `Node.updatePlayer` holds (`connected` and a non-empty
  `sessionId`); failures beyond that check are environment nondeterminism
  outside the model.  REST requests actually sent are collected in a
  `List RestCall`.
* `time.Ticker` values are modelled by numeric ids: `nextTicker` is a
  fresh-id counter, `liveTickers` records the tickers created and not yet
  stopped, each tagged with the guild whose progress task it drives.
* JSON frames decoded into loosely
  typed Go maps become structures of `Option` fields; a missing or
  wrongly typed key is `none`, matching the `v, _ := m[k].(T)` pattern
  (whose zero-value default is applied where the Go code applies it).
-/

namespace PancyLavalink

/-- Volume bounds, from the `MinVolume`/`MaxVolume` constants. -/
def MinVolume : Int := 0

/-- Upper volume bound (`MaxVolume = 1000`). -/
def MaxVolume : Int := 1000

/-- Metadata of a track (`TrackInfo`). -/
structure TrackInfo where
  identifier : String
  isSeekable : Bool
  author : String
  length : Int
  isStream : Bool
  position : Int
  title : String
  uri : String
  artworkUrl : String
  sourceName : String
  deriving DecidableEq, Repr

/-- A playable track (`Track`): the node-issued encoded blob plus info. -/
structure Track where
  encoded : String
  info : TrackInfo
  deriving DecidableEq, Repr

/-- Per-guild player state (`Player`).  The Go mutex is dropped: the
embedding is sequential, matching the lock discipline in which each
operation's critical sections execute atomically. -/
structure Player where
  guildID : String
  textChannelID : String
  voiceChannel : String
  currentTrack : Option Track
  queue : List Track
  volume : Int
  isPlaying : Bool
  isPaused : Bool
  position : Int
  deriving DecidableEq, Repr

/-- Configuration of a Lavalink node (`NodeConfig`). -/
structure NodeConfig where
  name : String
  host : String
  port : Int
  password : String
  secure : Bool
  deriving DecidableEq, Repr

/-- Connection state of a Lavalink node (`Node`): the websocket handle is
dropped, the fields read by the REST plane are kept. -/
structure Node where
  config : NodeConfig
  connected : Bool
  reconnecting : Bool
  sessionId : String
  deriving DecidableEq, Repr

/-- A voice patch sent to the node
(the payload built in `voiceServerUpdate`). -/
structure VoicePatch where
  sessionId : String
  token : String
  endpoint : String
  deriving DecidableEq, Repr

/-- A partial player patch, the body of a PATCH to
`/v4/sessions/.../players/...`.  `track = some none` is the explicit
null track used by `Stop`; `track = some (some enc)` carries an encoded
blob; an absent key is `none`. -/
structure UpdatePayload where
  track : Option (Option String) := none
  paused : Option Bool := none
  volume : Option Int := none
  voice : Option VoicePatch := none
  deriving DecidableEq, Repr

/-- A REST request issued to a node. -/
inductive RestCall where
  | updatePlayer (guildID : String) (payload : UpdatePayload)
  | destroyPlayer (guildID : String)
  deriving DecidableEq, Repr

/-- The whole client state (`LavalinkClient`): configured nodes, the
guild→player registry, and the progress-ticker registry. -/
structure ClientState where
  nodes : List Node
  players : String → Option Player
  progressTickers : String → Option Nat
  liveTickers : List (Nat × String)
  nextTicker : Nat

/-- Initial client state built by `NewLavalinkClient`: empty player and
ticker registries, the configured nodes. -/
def initialState (ns : List Node) : ClientState :=
  { nodes := ns
    players := fun _ => none
    progressTickers := fun _ => none
    liveTickers := []
    nextTicker := 0 }

/-- Map update used for the `players` registry. -/
def setPlayerMap (m : String → Option Player) (g : String) (p : Player) :
    String → Option Player :=
  fun g' => if g' = g then some p else m g'

/-- Store a player under its guild id. -/
def setPlayer (st : ClientState) (g : String) (p : Player) : ClientState :=
  { st with players := setPlayerMap st.players g p }

/-- Fresh player built by `GetPlayer` on a missing guild: default volume
100, empty queue, Go zero values elsewhere. -/
def newPlayer (g : String) : Player :=
  { guildID := g
    textChannelID := ""
    voiceChannel := ""
    currentTrack := none
    queue := []
    volume := 100
    isPlaying := false
    isPaused := false
    position := 0 }

/-- LavalinkClient.GetPlayer: returns the existing player for the guild
or inserts a fresh one. -/
def getPlayer (st : ClientState) (g : String) : Player × ClientState :=
  match st.players g with
  | some p => (p, st)
  | none => (newPlayer g, setPlayer st g (newPlayer g))

/-- Node.updatePlayer (precondition part): fails unless the node is
connected with a non-empty session; otherwise the PATCH request goes
out.  The transport itself is modelled as succeeding. -/
def Node.updatePlayer (n : Node) (guildID : String) (payload : UpdatePayload) :
    Except String RestCall :=
  if !n.connected || n.sessionId == "" then
    Except.error "node not connected or no session"
  else
    Except.ok (RestCall.updatePlayer guildID payload)

/-- Node.destroyPlayer: same precondition as `Node.updatePlayer`, issues
the DELETE request. -/
def Node.destroyPlayer (n : Node) (guildID : String) : Except String RestCall :=
  if !n.connected || n.sessionId == "" then
    Except.error "node not connected or no session"
  else
    Except.ok (RestCall.destroyPlayer guildID)

/-- A node usable by the REST plane: connected and with a session. -/
def nodeUsable (n : Node) : Bool :=
  n.connected && !(n.sessionId == "")

/-- The `for _, node := range c.nodes` send loop shared by Play, Pause,
Stop, Skip, SetVolume, handleTrackEnd and voiceServerUpdate: skip
unconnected nodes, try `updatePlayer`, continue on error, stop after the
first success.  Returns the requests issued and whether one succeeded. -/
def tryNodesUpdate (nodes : List Node) (g : String) (p : UpdatePayload) :
    List RestCall × Bool :=
  match nodes with
  | [] => ([], false)
  | n :: rest =>
    if n.connected then
      match n.updatePlayer g p with
      | Except.ok call => ([call], true)
      | Except.error _ => tryNodesUpdate rest g p
    else
      tryNodesUpdate rest g p

/-- Result of a client command: the new state, the REST requests issued,
and the Go error return. -/
structure OpResult where
  state : ClientState
  calls : List RestCall
  result : Except String Unit

/-- LavalinkClient.stopProgressUpdates: stop and drop the guild's ticker
if one is registered. -/
def stopProgressUpdates (st : ClientState) (g : String) : ClientState :=
  match st.progressTickers g with
  | some t =>
    { st with
      progressTickers := fun g' => if g' = g then none else st.progressTickers g'
      liveTickers := st.liveTickers.filter (fun x => x.1 != t) }
  | none => st

/-- LavalinkClient.startProgressUpdates: cancel any existing ticker for
the guild, then register a fresh one. -/
def startProgressUpdates (st : ClientState) (g : String) : ClientState :=
  let st := stopProgressUpdates st g
  let t := st.nextTicker
  { st with
    progressTickers := fun g' => if g' = g then some t else st.progressTickers g'
    liveTickers := st.liveTickers ++ [(t, g)]
    nextTicker := t + 1 }

/-- One tick of the progress goroutine body: fetch the player and stop
the updates when it is no longer playing (publishing has no state
effect). -/
def progressTick (st : ClientState) (g : String) : ClientState :=
  let pr := getPlayer st g
  if pr.1.isPlaying then pr.2 else stopProgressUpdates pr.2 g

/-- LavalinkClient.Play.  Voice-channel join is an external call modelled
as succeeding; on a join failure the Go code returns before any of the
state below is touched. -/
def play (st : ClientState) (g voiceChannelID textChannelID : String)
    (track : Track) : OpResult :=
  let pr := getPlayer st g
  let p := { pr.1 with voiceChannel := voiceChannelID, textChannelID := textChannelID }
  if p.isPlaying then
    { state := setPlayer pr.2 g { p with queue := p.queue ++ [track] }
      calls := []
      result := Except.ok () }
  else
    let st1 := setPlayer pr.2 g { p with currentTrack := some track, isPlaying := true }
    { state := st1
      calls := (tryNodesUpdate st1.nodes g { track := some (some track.encoded) }).1
      result := Except.ok () }

/-- LavalinkClient.Pause. -/
def pause (st : ClientState) (g : String) (pauseV : Bool) : OpResult :=
  let pr := getPlayer st g
  let st1 := setPlayer pr.2 g { pr.1 with isPaused := pauseV }
  let r := tryNodesUpdate st1.nodes g { paused := some pauseV }
  { state := st1
    calls := r.1
    result := if r.2 then Except.ok () else Except.error "no available nodes" }

/-- LavalinkClient.Stop: clear the local player, stop the progress
ticker, send a null track. -/
def stop (st : ClientState) (g : String) : OpResult :=
  let pr := getPlayer st g
  let st1 := setPlayer pr.2 g { pr.1 with isPlaying := false, currentTrack := none, queue := [] }
  let st2 := stopProgressUpdates st1 g
  let r := tryNodesUpdate st2.nodes g { track := some none }
  { state := st2
    calls := r.1
    result := if r.2 then Except.ok () else Except.error "no available nodes" }

/-- LavalinkClient.Skip: on an empty queue delegate to `stop`, else pop
the queue head into `currentTrack` and send it. -/
def skip (st : ClientState) (g : String) : OpResult :=
  let pr := getPlayer st g
  match pr.1.queue with
  | [] => stop pr.2 g
  | nextTrack :: rest =>
    let st1 := setPlayer pr.2 g { pr.1 with queue := rest, currentTrack := some nextTrack }
    let r := tryNodesUpdate st1.nodes g { track := some (some nextTrack.encoded) }
    { state := st1
      calls := r.1
      result := if r.2 then Except.ok () else Except.error "no available nodes" }

/-- LavalinkClient.SetVolume: clamp to [MinVolume, MaxVolume], store,
send. -/
def setVolume (st : ClientState) (g : String) (volume : Int) : OpResult :=
  let volume1 := if volume < MinVolume then MinVolume else volume
  let volume2 := if volume1 > MaxVolume then MaxVolume else volume1
  let pr := getPlayer st g
  let st1 := setPlayer pr.2 g { pr.1 with volume := volume2 }
  let r := tryNodesUpdate st1.nodes g { volume := some volume2 }
  { state := st1
    calls := r.1
    result := if r.2 then Except.ok () else Except.error "no available nodes" }

/-- LavalinkClient.handleTrackEnd: stop the progress ticker, then either
pop-and-play the next queued track or go idle. -/
def handleTrackEnd (st : ClientState) (g : String) : ClientState × List RestCall :=
  let st1 := stopProgressUpdates st g
  let pr := getPlayer st1 g
  match pr.1.queue with
  | nextTrack :: rest =>
    let st2 := setPlayer pr.2 g { pr.1 with queue := rest, currentTrack := some nextTrack }
    (st2, (tryNodesUpdate st2.nodes g { track := some (some nextTrack.encoded) }).1)
  | [] =>
    (setPlayer pr.2 g { pr.1 with isPlaying := false, currentTrack := none }, [])

/-- LavalinkClient.handleTrackStart: when a current track exists, start
the progress publisher (MQTT publishing has no state effect). -/
def handleTrackStart (st : ClientState) (g : String) : ClientState :=
  let pr := getPlayer st g
  match pr.1.currentTrack with
  | none => pr.2
  | some _ => startProgressUpdates pr.2 g

/-- First-connected-node loop of LavalinkClient.DestroyPlayer: the DELETE
is attempted on the first connected node and the loop breaks whether or
not it failed. -/
def firstConnectedDestroy (nodes : List Node) (g : String) : List RestCall :=
  match nodes with
  | [] => []
  | n :: rest =>
    if n.connected then
      match n.destroyPlayer g with
      | Except.ok call => [call]
      | Except.error _ => []
    else
      firstConnectedDestroy rest g

/-- LavalinkClient.DestroyPlayer: drop the registry entry, stop the
ticker, best-effort DELETE on the first connected node. -/
def destroyPlayer (st : ClientState) (g : String) : ClientState × List RestCall :=
  let st := { st with players := fun g' => if g' = g then none else st.players g' }
  let st := stopProgressUpdates st g
  (st, firstConnectedDestroy st.nodes g)

/-- State carried by a `playerUpdate` frame; `position` is `none` when
the key is missing or not a number (the Go type assertion then yields
the zero value 0). -/
structure PlayerUpdateState where
  position : Option Int
  deriving DecidableEq, Repr

/-- A decoded `playerUpdate` frame. -/
structure PlayerUpdateFrame where
  guildId : Option String
  state : Option PlayerUpdateState
  deriving DecidableEq, Repr

/-- Node.handlePlayerUpdate: requires a guildId and a state object, reads
the position (default 0), and overwrites only the position of an
existing player; a missing player changes nothing (the handler uses the
registry map directly, not `GetPlayer`). -/
def handlePlayerUpdate (st : ClientState) (f : PlayerUpdateFrame) : ClientState :=
  match f.guildId with
  | none => st
  | some g =>
    match f.state with
    | none => st
    | some s =>
      let position := s.position.getD 0
      match st.players g with
      | some p => setPlayer st g { p with position := position }
      | none => st

/-- LavalinkClient.Search, over a response oracle: skip unconnected
nodes, return the first successfully fetched and decoded result,
otherwise the no-available-nodes error.  `responses` maps a node name to
the decoded result of its load-tracks endpoint (`none` covers transport
errors, non-200 statuses and decode failures, all of which `continue`). -/
def search (nodes : List Node) (responses : String → Option (List Track))
    (query : String) : Except String (List Track) :=
  match nodes with
  | [] => Except.error "no available Lavalink nodes"
  | n :: rest =>
    if n.connected then
      match responses n.config.name with
      | some r => Except.ok r
      | none => search rest responses query
    else
      search rest responses query

/-- A user's voice state as cached by the chat platform library
(discordgo `VoiceState`): the fields the correlator reads. -/
structure VoiceStateEntry where
  userID : String
  sessionID : String
  deriving DecidableEq, Repr

/-- A guild in the chat platform state cache. -/
structure GuildState where
  id : String
  voiceStates : List VoiceStateEntry
  deriving DecidableEq, Repr

/-- The chat platform session state (`discordgo.Session.State`): the bot
user id and the per-guild voice-state cache. -/
structure DiscordState where
  botUserID : String
  guilds : List GuildState
  deriving DecidableEq, Repr

/-- Lookup of a guild in the platform cache (`State.Guild`). -/
def findGuild (ds : DiscordState) (g : String) : Option GuildState :=
  ds.guilds.find? (fun gs => gs.id == g)

/-- Voice-state cache update performed by the chat platform library when
a voice-state event is delivered for a user, before any handler runs:
the user's entry in the guild is replaced (or appended).  Modelled from
discordgo's state tracking, which the correlator relies on. -/
def cacheVoiceState (ds : DiscordState) (g userID sessionID : String) : DiscordState :=
  { ds with
    guilds := ds.guilds.map (fun gs =>
      if gs.id == g then
        { gs with voiceStates :=
            gs.voiceStates.filter (fun vs => vs.userID != userID)
              ++ [{ userID := userID, sessionID := sessionID }] }
      else gs) }

/-- A `VoiceStateUpdate` event as seen by the handler. -/
structure VoiceStateUpdateEvent where
  guildID : String
  userID : String
  sessionID : String
  deriving DecidableEq, Repr

/-- A `VoiceServerUpdate` event: the token/endpoint half. -/
structure VoiceServerUpdateEvent where
  guildID : String
  token : String
  endpoint : String
  deriving DecidableEq, Repr

/-- LavalinkClient.voiceStateUpdate: ignores other users' events and only
logs its own — it issues no REST call and stores nothing itself. -/
def voiceStateUpdate (ds : DiscordState) (st : ClientState)
    (v : VoiceStateUpdateEvent) : List RestCall :=
  if v.userID != ds.botUserID then [] else []

/-- LavalinkClient.voiceServerUpdate: look the bot's voice state up in
the platform cache; when found, send one voice patch through the node
loop; when the guild or the voice state is missing, log and return. -/
def voiceServerUpdate (ds : DiscordState) (st : ClientState)
    (v : VoiceServerUpdateEvent) : List RestCall :=
  match findGuild ds v.guildID with
  | none => []
  | some guild =>
    match guild.voiceStates.find? (fun vs => vs.userID == ds.botUserID) with
    | none => []
    | some voiceState =>
      (tryNodesUpdate st.nodes v.guildID
        { voice := some
            { sessionId := voiceState.sessionID
              token := v.token
              endpoint := v.endpoint } }).1

/-- The two halves of the voice credential as external events. -/
inductive VoiceEvent where
  | sessionEv (guildID userID sessionID : String)
  | serverEv (guildID token endpoint : String)
  deriving DecidableEq, Repr

/-- Delivery of one voice event: the platform cache is updated first
(voice-state events only), then the registered handler runs. -/
def deliverVoiceEvent (ds : DiscordState) (st : ClientState) :
    VoiceEvent → DiscordState × List RestCall
  | VoiceEvent.sessionEv g u sid =>
    let ds := cacheVoiceState ds g u sid
    (ds, voiceStateUpdate ds st { guildID := g, userID := u, sessionID := sid })
  | VoiceEvent.serverEv g tok ep =>
    (ds, voiceServerUpdate ds st { guildID := g, token := tok, endpoint := ep })

/-- Delivery of a whole sequence of voice events, collecting every REST
call issued (the client state is not mutated by either handler). -/
def runVoice (ds : DiscordState) (st : ClientState) :
    List VoiceEvent → DiscordState × List RestCall
  | [] => (ds, [])
  | e :: rest =>
    let (ds, calls) := deliverVoiceEvent ds st e
    let (ds, more) := runVoice ds st rest
    (ds, calls ++ more)

/-- Whether a REST call is an `updatePlayer` carrying a voice patch for
the given guild. -/
def isVoiceCall (g : String) : RestCall → Bool
  | RestCall.updatePlayer g' payload => g' == g && payload.voice.isSome
  | RestCall.destroyPlayer _ => false

/-- The public operations and inbound-frame handlers that drive a client
state, used to define reachability. -/
inductive Op where
  | getPlayerOp (g : String)
  | playOp (g voiceChannelID textChannelID : String) (t : Track)
  | pauseOp (g : String) (b : Bool)
  | stopOp (g : String)
  | skipOp (g : String)
  | setVolumeOp (g : String) (v : Int)
  | trackStartOp (g : String)
  | trackEndOp (g : String)
  | playerUpdateOp (f : PlayerUpdateFrame)
  | progressTickOp (g : String)
  | destroyPlayerOp (g : String)
  | setNodesOp (ns : List Node)

/-- The state transformation of each operation (REST calls and error
returns discarded).  `setNodesOp` stands for the node lifecycle
(connect, disconnect, ready), which never touches players or tickers. -/
def applyOp (st : ClientState) : Op → ClientState
  | Op.getPlayerOp g => (getPlayer st g).2
  | Op.playOp g vc tc t => (play st g vc tc t).state
  | Op.pauseOp g b => (pause st g b).state
  | Op.stopOp g => (stop st g).state
  | Op.skipOp g => (skip st g).state
  | Op.setVolumeOp g v => (setVolume st g v).state
  | Op.trackStartOp g => handleTrackStart st g
  | Op.trackEndOp g => (handleTrackEnd st g).1
  | Op.playerUpdateOp f => handlePlayerUpdate st f
  | Op.progressTickOp g => progressTick st g
  | Op.destroyPlayerOp g => (destroyPlayer st g).1
  | Op.setNodesOp ns => { st with nodes := ns }

/-- Client states reachable from a fresh client through the public
operations and remote-event handlers. -/
inductive Reachable : ClientState → Prop where
  | init (ns : List Node) : Reachable (initialState ns)
  | step (st : ClientState) (op : Op) : Reachable st → Reachable (applyOp st op)

/-! Sample data for concrete evaluations. -/

/-- Sample track metadata. -/
def sampleInfo : TrackInfo :=
  { identifier := "id", isSeekable := true, author := "a", length := 1000
    isStream := false, position := 0, title := "t", uri := "u"
    artworkUrl := "w", sourceName := "deezer" }

/-- Sample track A. -/
def trackA : Track := { encoded := "encA", info := sampleInfo }

/-- Sample track B. -/
def trackB : Track := { encoded := "encB", info := sampleInfo }

/-- Sample track C. -/
def trackC : Track := { encoded := "encC", info := sampleInfo }

/-- A connected node that has received its ready frame. -/
def nodeOk : Node :=
  { config := { name := "main", host := "localhost", port := 2333, password := "pw", secure := false }
    connected := true, reconnecting := false, sessionId := "sess" }

/-- A node that never connected. -/
def nodeDown : Node :=
  { config := { name := "down", host := "localhost", port := 2334, password := "pw", secure := false }
    connected := false, reconnecting := false, sessionId := "" }

/-- Three successive Play calls on the same guild (harness for the FIFO
property). -/
def playThree (st : ClientState) (g vc tc : String) (A B C : Track) : ClientState :=
  (play (play (play st g vc tc A).state g vc tc B).state g vc tc C).state

/-- Iterated delivery of TrackEndEvent (harness). -/
def endN (st : ClientState) (g : String) : Nat → ClientState
  | 0 => st
  | n + 1 => (handleTrackEnd (endN st g n) g).1

/-- Platform cache with one known guild and no voice states yet. -/
def demoDiscord : DiscordState :=
  { botUserID := "me", guilds := [{ id := "g", voiceStates := [] }] }

/-- Demo client: one usable node, guild "g" playing `trackA` with
`trackB` queued (built through the public operations). -/
def demoPlaying : ClientState :=
  applyOp (applyOp (initialState [nodeOk]) (Op.playOp "g" "v" "t" trackA))
    (Op.playOp "g" "v" "t" trackB)

/-- The player `demoPlaying` stores for guild "g". -/
def demoPlayer : Player :=
  { guildID := "g", textChannelID := "t", voiceChannel := "v", currentTrack := some trackA
    queue := [trackB], volume := 100, isPlaying := true, isPaused := false, position := 0 }

/-- Demo client playing `trackA` with an empty queue. -/
def demoOne : ClientState :=
  applyOp (initialState [nodeOk]) (Op.playOp "g" "v" "t" trackA)

/-- The player `demoOne` stores for guild "g". -/
def demoOnePlayer : Player :=
  { guildID := "g", textChannelID := "t", voiceChannel := "v", currentTrack := some trackA
    queue := [], volume := 100, isPlaying := true, isPaused := false, position := 0 }

/-! Invariants. -/

/-- Per-player invariant: a non-playing player has no current track and
an empty queue, and the volume is within bounds. -/
def playerInv (p : Player) : Prop :=
  (p.isPlaying = false → p.currentTrack = none ∧ p.queue = []) ∧
  MinVolume ≤ p.volume ∧ p.volume ≤ MaxVolume

/-- Registry-wide player invariant. -/
def PInv (m : String → Option Player) : Prop :=
  ∀ g p, m g = some p → playerInv p

/-- The live tickers driving a given guild's progress task. -/
def liveFor (st : ClientState) (g : String) : List (Nat × String) :=
  st.liveTickers.filter (fun x => x.2 == g)

/-- The live tickers a registry entry should account for. -/
def tickList : Option Nat → String → List (Nat × String)
  | some t, g => [(t, g)]
  | none, _ => []

/-- Ticker invariant: ids are below the fresh counter and globally
distinct, and the live tickers of each guild are exactly the one its
registry entry records. -/
def tickInv (st : ClientState) : Prop :=
  (∀ x ∈ st.liveTickers, x.1 < st.nextTicker) ∧
  (st.liveTickers.map Prod.fst).Nodup ∧
  ∀ g, liveFor st g = tickList (st.progressTickers g) g

/-- Combined client invariant. -/
def Inv (st : ClientState) : Prop := PInv st.players ∧ tickInv st

/-! Basic lemmas about the registry and the send loop. -/

theorem getPlayer_some {st : ClientState} {g : String} {p : Player}
    (h : st.players g = some p) : getPlayer st g = (p, st) := by
  simp [getPlayer, h]

theorem getPlayer_none {st : ClientState} {g : String}
    (h : st.players g = none) :
    getPlayer st g = (newPlayer g, setPlayer st g (newPlayer g)) := by
  simp [getPlayer, h]

theorem setPlayerMap_self (m : String → Option Player) (g : String) (p : Player) :
    setPlayerMap m g p g = some p := by
  simp [setPlayerMap]

theorem setPlayer_lookup_self (st : ClientState) (g : String) (p : Player) :
    (setPlayer st g p).players g = some p :=
  setPlayerMap_self st.players g p

theorem stopProgress_players (st : ClientState) (g : String) :
    (stopProgressUpdates st g).players = st.players := by
  cases h : st.progressTickers g <;> simp [stopProgressUpdates, h]

theorem stopProgress_nodes (st : ClientState) (g : String) :
    (stopProgressUpdates st g).nodes = st.nodes := by
  cases h : st.progressTickers g <;> simp [stopProgressUpdates, h]

theorem startProgress_players (st : ClientState) (g : String) :
    (startProgressUpdates st g).players = st.players := by
  simp [startProgressUpdates, stopProgress_players]

theorem stopProgress_tickers_self (st : ClientState) (g : String) :
    (stopProgressUpdates st g).progressTickers g = none := by
  cases h : st.progressTickers g <;> simp [stopProgressUpdates, h]

theorem tryNodesUpdate_of_usable {nodes : List Node} (g : String) (p : UpdatePayload)
    (h : ∃ n ∈ nodes, nodeUsable n = true) :
    tryNodesUpdate nodes g p = ([RestCall.updatePlayer g p], true) := by
  induction nodes with
  | nil => simp at h
  | cons n rest ih =>
    obtain ⟨m, hm, hmu⟩ := h
    rcases List.mem_cons.mp hm with hm | hm
    · subst hm
      have hc : m.connected = true := by
        simpa [nodeUsable] using (Bool.and_elim_left hmu)
      have hs : (m.sessionId == "") = false := by
        have := Bool.and_elim_right hmu
        simpa [nodeUsable] using this
      simp [tryNodesUpdate, hc, Node.updatePlayer, hs]
    · by_cases hc : n.connected
      · by_cases hs : n.sessionId == ""
        · simp [tryNodesUpdate, hc, Node.updatePlayer, hs, ih ⟨m, hm, hmu⟩]
        · simp [tryNodesUpdate, hc, Node.updatePlayer, hs]
      · simp [tryNodesUpdate, hc, ih ⟨m, hm, hmu⟩]

theorem tryNodesUpdate_of_none {nodes : List Node} (g : String) (p : UpdatePayload)
    (h : ∀ n ∈ nodes, nodeUsable n = false) :
    tryNodesUpdate nodes g p = ([], false) := by
  induction nodes with
  | nil => rfl
  | cons n rest ih =>
    have hn : nodeUsable n = false := h n (List.mem_cons_self n rest)
    have hrest : ∀ m ∈ rest, nodeUsable m = false := fun m hm => h m (List.mem_cons_of_mem n hm)
    by_cases hc : n.connected
    · have hs : (n.sessionId == "") = true := by
        cases hq : (n.sessionId == "") with
        | true => rfl
        | false => simp [nodeUsable, hc, hq] at hn
      simp [tryNodesUpdate, hc, Node.updatePlayer, hs, ih hrest]
    · simp [tryNodesUpdate, hc, ih hrest]

theorem tryNodesUpdate_calls {nodes : List Node} {g : String} {p : UpdatePayload} :
    ∀ c ∈ (tryNodesUpdate nodes g p).1, c = RestCall.updatePlayer g p := by
  induction nodes with
  | nil => simp [tryNodesUpdate]
  | cons n rest ih =>
    by_cases hc : n.connected
    · by_cases hs : n.sessionId == ""
      · simpa [tryNodesUpdate, hc, Node.updatePlayer, hs] using ih
      · simp [tryNodesUpdate, hc, Node.updatePlayer, hs]
    · simpa [tryNodesUpdate, hc] using ih

theorem filter_swap {α : Type} (p q : α → Bool) (l : List α) :
    (l.filter p).filter q = (l.filter q).filter p := by
  induction l with
  | nil => rfl
  | cons a l ih =>
    by_cases hp : p a <;> by_cases hq : q a <;>
      simp [List.filter_cons, hp, hq, ih]

theorem tickInv_stopProgress {st : ClientState} (h : tickInv st) (g : String) :
    tickInv (stopProgressUpdates st g) := by
  obtain ⟨hb, hnd, hg⟩ := h
  cases hpt : st.progressTickers g with
  | none =>
    have heq : stopProgressUpdates st g = st := by simp [stopProgressUpdates, hpt]
    rw [heq]
    exact ⟨hb, hnd, hg⟩
  | some t =>
    have hfg : st.liveTickers.filter (fun x => x.2 == g) = [(t, g)] := by
      have := hg g
      rw [hpt] at this
      simpa [liveFor, tickList] using this
    have hmem : (t, g) ∈ st.liveTickers :=
      (List.mem_filter.mp (by rw [hfg]; exact List.mem_singleton_self _)).1
    refine ⟨?_, ?_, ?_⟩
    · intro x hx
      simp only [stopProgressUpdates, hpt] at hx ⊢
      exact hb x (List.mem_of_mem_filter hx)
    · simp only [stopProgressUpdates, hpt]
      exact List.Nodup.sublist ((List.filter_sublist _).map Prod.fst) hnd
    · intro g'
      simp only [stopProgressUpdates, hpt, liveFor, tickList]
      by_cases hgg : g' = g
      · subst hgg
        rw [if_pos rfl]
        rw [show (st.liveTickers.filter (fun x => x.1 != t)).filter (fun x => x.2 == g')
              = (st.liveTickers.filter (fun x => x.2 == g')).filter (fun x => x.1 != t)
            from filter_swap _ _ _]
        rw [hfg]
        simp [tickList]
      · rw [if_neg hgg]
        rw [show (st.liveTickers.filter (fun x => x.1 != t)).filter (fun x => x.2 == g')
              = (st.liveTickers.filter (fun x => x.2 == g')).filter (fun x => x.1 != t)
            from filter_swap _ _ _]
        have hLg' := hg g'
        rw [liveFor] at hLg'
        rw [hLg']
        cases hm' : st.progressTickers g' with
        | none => simp [tickList]
        | some t' =>
          have hmem' : (t', g') ∈ st.liveTickers := by
            have hx : (t', g') ∈ st.liveTickers.filter (fun x => x.2 == g') := by
              rw [hLg', hm']
              simp [tickList]
            exact List.mem_of_mem_filter hx
          have htne : t' ≠ t := by
            intro hteq
            subst hteq
            have := List.inj_on_of_nodup_map hnd hmem' hmem rfl
            exact hgg (congrArg Prod.snd this)
          simp [tickList, List.filter_cons, htne]

theorem tickInv_register {st' : ClientState} (h : tickInv st') (g : String)
    (hnone : st'.progressTickers g = none) :
    tickInv
      { st' with
        progressTickers := fun g' => if g' = g then some st'.nextTicker else st'.progressTickers g'
        liveTickers := st'.liveTickers ++ [(st'.nextTicker, g)]
        nextTicker := st'.nextTicker + 1 } := by
  obtain ⟨hb, hnd, hg⟩ := h
  have hLg : st'.liveTickers.filter (fun x => x.2 == g) = [] := by
    have := hg g
    rw [hnone] at this
    simpa [liveFor, tickList] using this
  refine ⟨?_, ?_, ?_⟩
  · intro x hx
    rcases List.mem_append.mp hx with hx | hx
    · exact Nat.lt_succ_of_lt (hb x hx)
    · rcases List.mem_singleton.mp hx with rfl
      exact Nat.lt_succ_self _
  · rw [List.map_append]
    rw [List.nodup_append]
    refine ⟨hnd, List.nodup_singleton _, ?_⟩
    intro a ha hb'
    rcases List.mem_map.mp ha with ⟨x, hx, rfl⟩
    have := hb x hx
    rcases List.mem_singleton.mp hb' with h
    omega
  · intro g'
    simp only [liveFor, List.filter_append]
    by_cases hgg : g' = g
    · subst hgg
      rw [if_pos rfl, hLg]
      simp [tickList]
    · rw [if_neg hgg]
      have := hg g'
      rw [liveFor] at this
      rw [this]
      have : ((g : String) == g') = false := by
        simp [Ne.symm hgg]
      simp [List.filter_cons, this]

theorem tickInv_startProgress {st : ClientState} (h : tickInv st) (g : String) :
    tickInv (startProgressUpdates st g) :=
  tickInv_register (tickInv_stopProgress h g) g (stopProgress_tickers_self st g)

theorem startProgress_tickers_self (st : ClientState) (g : String) :
    (startProgressUpdates st g).progressTickers g =
      some (stopProgressUpdates st g).nextTicker := by
  simp [startProgressUpdates]

theorem volume_100_bounds : MinVolume ≤ (100 : Int) ∧ (100 : Int) ≤ MaxVolume := by
  constructor <;> decide

theorem playerInv_newPlayer (g : String) : playerInv (newPlayer g) :=
  ⟨fun _ => ⟨rfl, rfl⟩, volume_100_bounds.1, volume_100_bounds.2⟩

theorem PInv_set {m : String → Option Player} {g : String} {p : Player}
    (hm : PInv m) (hp : playerInv p) : PInv (setPlayerMap m g p) := by
  intro g' q hq
  unfold setPlayerMap at hq
  split at hq
  · injection hq with h
    subst h
    exact hp
  · exact hm _ _ hq

theorem Inv_setPlayer {st : ClientState} {g : String} {p : Player}
    (h : Inv st) (hp : playerInv p) : Inv (setPlayer st g p) :=
  ⟨PInv_set h.1 hp, h.2⟩

theorem Inv_stopProgress {st : ClientState} (h : Inv st) (g : String) :
    Inv (stopProgressUpdates st g) :=
  ⟨by rw [show (stopProgressUpdates st g).players = st.players from stopProgress_players st g]
      exact h.1,
   tickInv_stopProgress h.2 g⟩

theorem Inv_startProgress {st : ClientState} (h : Inv st) (g : String) :
    Inv (startProgressUpdates st g) :=
  ⟨by rw [show (startProgressUpdates st g).players = st.players from startProgress_players st g]
      exact h.1,
   tickInv_startProgress h.2 g⟩

theorem Inv_getPlayer {st : ClientState} (h : Inv st) (g : String) :
    Inv (getPlayer st g).2 := by
  cases hpg : st.players g with
  | some p => rw [getPlayer_some hpg]; exact h
  | none => rw [getPlayer_none hpg]; exact Inv_setPlayer h (playerInv_newPlayer g)

theorem inv_stop {st : ClientState} (h : Inv st) (g : String) :
    Inv (stop st g).state := by
  cases hpg : st.players g with
  | some p =>
    have hp := h.1 g p hpg
    simp only [stop, getPlayer_some hpg]
    have hpi : playerInv { p with isPlaying := false, currentTrack := none, queue := [] } :=
      ⟨fun _ => ⟨rfl, rfl⟩, hp.2.1, hp.2.2⟩
    exact Inv_stopProgress (Inv_setPlayer h hpi) g
  | none =>
    simp only [stop, getPlayer_none hpg]
    have hpi : playerInv { newPlayer g with isPlaying := false, currentTrack := none, queue := [] } :=
      ⟨fun _ => ⟨rfl, rfl⟩, volume_100_bounds.1, volume_100_bounds.2⟩
    exact Inv_stopProgress (Inv_setPlayer (Inv_setPlayer h (playerInv_newPlayer g)) hpi) g

theorem inv_applyOp {st : ClientState} (h : Inv st) (op : Op) :
    Inv (applyOp st op) := by
  cases op with
  | getPlayerOp g =>
    exact Inv_getPlayer h g
  | playOp g vc tc t =>
    cases hpg : st.players g with
    | some p =>
      have hp := h.1 g p hpg
      simp only [applyOp, play, getPlayer_some hpg]
      by_cases hpl : p.isPlaying = true
      · rw [if_pos hpl]
        have hpi : playerInv
            { p with voiceChannel := vc, textChannelID := tc, queue := p.queue ++ [t] } :=
          ⟨fun hf => absurd hf (by simp [hpl]), hp.2.1, hp.2.2⟩
        exact Inv_setPlayer h hpi
      · rw [if_neg hpl]
        have hpi : playerInv
            { p with
              voiceChannel := vc, textChannelID := tc
              currentTrack := some t, isPlaying := true } :=
          ⟨fun hf => by simp at hf, hp.2.1, hp.2.2⟩
        exact Inv_setPlayer h hpi
    | none =>
      simp only [applyOp, play, getPlayer_none hpg]
      have hq : ¬ (newPlayer g).isPlaying = true := by simp [newPlayer]
      rw [if_neg hq]
      have hpi : playerInv
          { newPlayer g with
            voiceChannel := vc, textChannelID := tc
            currentTrack := some t, isPlaying := true } :=
        ⟨fun hf => by simp at hf, volume_100_bounds.1, volume_100_bounds.2⟩
      exact Inv_setPlayer (Inv_setPlayer h (playerInv_newPlayer g)) hpi
  | pauseOp g b =>
    cases hpg : st.players g with
    | some p =>
      have hp := h.1 g p hpg
      simp only [applyOp, pause, getPlayer_some hpg]
      have hpi : playerInv { p with isPaused := b } :=
        ⟨fun hf => hp.1 hf, hp.2.1, hp.2.2⟩
      exact Inv_setPlayer h hpi
    | none =>
      simp only [applyOp, pause, getPlayer_none hpg]
      have hpi : playerInv { newPlayer g with isPaused := b } :=
        ⟨fun _ => ⟨rfl, rfl⟩, volume_100_bounds.1, volume_100_bounds.2⟩
      exact Inv_setPlayer (Inv_setPlayer h (playerInv_newPlayer g)) hpi
  | stopOp g =>
    exact inv_stop h g
  | skipOp g =>
    cases hpg : st.players g with
    | some p =>
      have hp := h.1 g p hpg
      simp only [applyOp, skip, getPlayer_some hpg]
      cases hq : p.queue with
      | nil => exact inv_stop h g
      | cons t0 rest =>
        have hpl : p.isPlaying = true := by
          by_contra hf
          have := (hp.1 (Bool.eq_false_iff.mpr hf)).2
          rw [hq] at this
          cases this
        have hpi : playerInv { p with queue := rest, currentTrack := some t0 } :=
          ⟨fun hf => absurd hf (by simp [hpl]), hp.2.1, hp.2.2⟩
        exact Inv_setPlayer h hpi
    | none =>
      simp only [applyOp, skip, getPlayer_none hpg, newPlayer]
      exact inv_stop (Inv_setPlayer h (playerInv_newPlayer g)) g
  | setVolumeOp g v =>
    have hcl : MinVolume ≤ (if (if v < MinVolume then MinVolume else v) > MaxVolume then MaxVolume
          else if v < MinVolume then MinVolume else v) ∧
        (if (if v < MinVolume then MinVolume else v) > MaxVolume then MaxVolume
          else if v < MinVolume then MinVolume else v) ≤ MaxVolume := by
      simp only [MinVolume, MaxVolume]
      split_ifs <;> omega
    cases hpg : st.players g with
    | some p =>
      have hp := h.1 g p hpg
      simp only [applyOp, setVolume, getPlayer_some hpg]
      have hpi : playerInv
          { p with volume := if (if v < MinVolume then MinVolume else v) > MaxVolume then MaxVolume
              else if v < MinVolume then MinVolume else v } :=
        ⟨fun hf => hp.1 hf, hcl.1, hcl.2⟩
      exact Inv_setPlayer h hpi
    | none =>
      simp only [applyOp, setVolume, getPlayer_none hpg]
      have hpi : playerInv
          { newPlayer g with volume := if (if v < MinVolume then MinVolume else v) > MaxVolume
              then MaxVolume else if v < MinVolume then MinVolume else v } :=
        ⟨fun _ => ⟨rfl, rfl⟩, hcl.1, hcl.2⟩
      exact Inv_setPlayer (Inv_setPlayer h (playerInv_newPlayer g)) hpi
  | trackStartOp g =>
    cases hpg : st.players g with
    | some p =>
      simp only [applyOp, handleTrackStart, getPlayer_some hpg]
      cases p.currentTrack with
      | none => exact h
      | some t => exact Inv_startProgress h g
    | none =>
      simp only [applyOp, handleTrackStart, getPlayer_none hpg, newPlayer]
      exact Inv_setPlayer h (playerInv_newPlayer g)
  | trackEndOp g =>
    have h1 : Inv (stopProgressUpdates st g) := Inv_stopProgress h g
    cases hpg : (stopProgressUpdates st g).players g with
    | some p =>
      have hp := h1.1 g p hpg
      simp only [applyOp, handleTrackEnd, getPlayer_some hpg]
      cases hq : p.queue with
      | nil =>
        have hpi : playerInv { p with isPlaying := false, currentTrack := none, queue := [] } :=
          ⟨fun _ => ⟨rfl, rfl⟩, hp.2.1, hp.2.2⟩
        exact Inv_setPlayer h1 hpi
      | cons t0 rest =>
        have hpl : p.isPlaying = true := by
          by_contra hf
          have := (hp.1 (Bool.eq_false_iff.mpr hf)).2
          rw [hq] at this
          cases this
        have hpi : playerInv { p with queue := rest, currentTrack := some t0 } :=
          ⟨fun hf => absurd hf (by simp [hpl]), hp.2.1, hp.2.2⟩
        exact Inv_setPlayer h1 hpi
    | none =>
      simp only [applyOp, handleTrackEnd, getPlayer_none hpg, newPlayer]
      have hpi : playerInv { newPlayer g with isPlaying := false, currentTrack := none } :=
        ⟨fun _ => ⟨rfl, rfl⟩, volume_100_bounds.1, volume_100_bounds.2⟩
      exact Inv_setPlayer (Inv_setPlayer h1 (playerInv_newPlayer g)) hpi
  | playerUpdateOp f =>
    cases hg : f.guildId with
    | none => simpa [applyOp, handlePlayerUpdate, hg] using h
    | some g =>
      cases hs : f.state with
      | none => simpa [applyOp, handlePlayerUpdate, hg, hs] using h
      | some s =>
        cases hpg : st.players g with
        | some p =>
          have hp := h.1 g p hpg
          simp only [applyOp, handlePlayerUpdate, hg, hs, hpg]
          have hpi : playerInv { p with position := s.position.getD 0 } :=
            ⟨fun hf => hp.1 hf, hp.2.1, hp.2.2⟩
          exact Inv_setPlayer h hpi
        | none =>
          simpa [applyOp, handlePlayerUpdate, hg, hs, hpg] using h
  | progressTickOp g =>
    cases hpg : st.players g with
    | some p =>
      simp only [applyOp, progressTick, getPlayer_some hpg]
      by_cases hpl : p.isPlaying
      · rw [if_pos hpl]; exact h
      · rw [if_neg hpl]; exact Inv_stopProgress h g
    | none =>
      simp only [applyOp, progressTick, getPlayer_none hpg]
      have hq : ¬ (newPlayer g).isPlaying = true := by simp [newPlayer]
      rw [if_neg hq]
      exact Inv_stopProgress (Inv_setPlayer h (playerInv_newPlayer g)) g
  | destroyPlayerOp g =>
    have h1 : Inv { st with players := fun g' => if g' = g then none else st.players g' } := by
      refine ⟨?_, h.2⟩
      intro g' q hq
      by_cases hgg : g' = g
      · simp [hgg] at hq
      · simp only [hgg, if_false] at hq
        exact h.1 g' q hq
    exact Inv_stopProgress h1 g
  | setNodesOp ns =>
    exact ⟨h.1, h.2⟩

theorem inv_init (ns : List Node) : Inv (initialState ns) := by
  refine ⟨?_, ?_, ?_, ?_⟩
  · intro g p hp
    simp [initialState] at hp
  · intro x hx
    simp [initialState] at hx
  · simp [initialState]
  · intro g
    simp [initialState, liveFor, tickList]

theorem reachable_inv {st : ClientState} (h : Reachable st) : Inv st := by
  induction h with
  | init ns => exact inv_init ns
  | step st op _ ih => exact inv_applyOp ih op

theorem setPlayer_nodes (st : ClientState) (g : String) (p : Player) :
    (setPlayer st g p).nodes = st.nodes := rfl

theorem getPlayer_nodes (st : ClientState) (g : String) :
    (getPlayer st g).2.nodes = st.nodes := by
  cases hpg : st.players g <;> simp [getPlayer, hpg, setPlayer]

theorem search_no_connected {nodes : List Node}
    (responses : String → Option (List Track)) (q : String)
    (hall : ∀ m ∈ nodes, m.connected = false) :
    search nodes responses q = Except.error "no available Lavalink nodes" := by
  induction nodes with
  | nil => rfl
  | cons m rest ih =>
    have hm : m.connected = false := hall m (List.mem_cons_self m rest)
    simp only [search, hm, Bool.false_eq_true, if_false]
    exact ih (fun x hx => hall x (List.mem_cons_of_mem m hx))

/-! Claim theorems. -/

/-- C1: in every client state reachable through the public operations
(GetPlayer creation, Play, Pause, Stop, Skip, SetVolume, the remote
track-end/player-update handlers and the rest of `Op`), a guild player
with `isPlaying = false` has `currentTrack = none`; since `Reachable` is
closed under `applyOp`, every operation preserves this invariant. -/
theorem C1_not_playing_no_current_track (st : ClientState) (h : Reachable st)
    (g : String) (p : Player) (hp : st.players g = some p)
    (hnp : p.isPlaying = false) : p.currentTrack = none :=
  (((reachable_inv h).1 g p hp).1 hnp).1

/-- Witness for C1 at a concrete reachable state (a freshly created
player). -/
theorem C1_witness : (newPlayer "g").currentTrack = none :=
  C1_not_playing_no_current_track (applyOp (initialState []) (Op.getPlayerOp "g"))
    (Reachable.step _ (Op.getPlayerOp "g") (Reachable.init []))
    "g" (newPlayer "g") (by decide) (by decide)

/-- C2: a REST control-plane call addressed to a node that is not
connected or whose sessionId is empty fails with the node-unavailable
error (`updatePlayer` and `destroyPlayer`), and `Search` over a node
list with no connected node returns the no-available-nodes error; all
three are total functions, so none of them blocks. -/
theorem C2_unready_node_rest_fails (n : Node) (g : String) (payload : UpdatePayload)
    (nodes : List Node) (responses : String → Option (List Track)) (q : String)
    (hn : n.connected = false ∨ n.sessionId = "")
    (hall : ∀ m ∈ nodes, m.connected = false) :
    n.updatePlayer g payload = Except.error "node not connected or no session" ∧
    n.destroyPlayer g = Except.error "node not connected or no session" ∧
    search nodes responses q = Except.error "no available Lavalink nodes" := by
  refine ⟨?_, ?_, search_no_connected responses q hall⟩
  · rcases hn with hn | hn <;> simp [Node.updatePlayer, hn]
  · rcases hn with hn | hn <;> simp [Node.destroyPlayer, hn]

/-- Witness for C2 on a concrete disconnected node. -/
theorem C2_witness :
    nodeDown.updatePlayer "g" { volume := some 5 }
        = Except.error "node not connected or no session" ∧
    nodeDown.destroyPlayer "g" = Except.error "node not connected or no session" ∧
    search [nodeDown] (fun _ => none) "q" = Except.error "no available Lavalink nodes" :=
  C2_unready_node_rest_fails nodeDown "g" { volume := some 5 } [nodeDown]
    (fun _ => none) "q" (Or.inl (by decide)) (by decide)

/-- C10: when no usable node exists, Pause, Stop and SetVolume return
the no-available-nodes error, yet the local player state has already
been updated exactly as on success. -/
theorem C10_error_still_updates_state (st : ClientState) (g : String) (b : Bool) (v : Int)
    (hall : ∀ n ∈ st.nodes, nodeUsable n = false) :
    ((pause st g b).result = Except.error "no available nodes" ∧
      ∃ p', (pause st g b).state.players g = some p' ∧ p'.isPaused = b) ∧
    ((stop st g).result = Except.error "no available nodes" ∧
      ∃ p', (stop st g).state.players g = some p' ∧
        p'.isPlaying = false ∧ p'.currentTrack = none ∧ p'.queue = []) ∧
    ((setVolume st g v).result = Except.error "no available nodes" ∧
      ∃ p', (setVolume st g v).state.players g = some p' ∧
        p'.volume = (if (if v < MinVolume then MinVolume else v) > MaxVolume then MaxVolume
          else if v < MinVolume then MinVolume else v)) := by
  refine ⟨⟨?_, ?_⟩, ⟨?_, ?_⟩, ⟨?_, ?_⟩⟩
  · simp only [pause, setPlayer_nodes, getPlayer_nodes,
      tryNodesUpdate_of_none _ _ hall, Bool.false_eq_true, if_false]
  · exact ⟨{ (getPlayer st g).1 with isPaused := b },
      setPlayer_lookup_self _ _ _, rfl⟩
  · simp only [stop, stopProgress_nodes, setPlayer_nodes, getPlayer_nodes,
      tryNodesUpdate_of_none _ _ hall, Bool.false_eq_true, if_false]
  · refine ⟨{ (getPlayer st g).1 with isPlaying := false, currentTrack := none, queue := [] },
      ?_, rfl, rfl, rfl⟩
    show (stopProgressUpdates _ g).players g = _
    rw [stopProgress_players]
    exact setPlayer_lookup_self _ _ _
  · simp only [setVolume, setPlayer_nodes, getPlayer_nodes,
      tryNodesUpdate_of_none _ _ hall, Bool.false_eq_true, if_false]
  · exact ⟨{ (getPlayer st g).1 with volume := if (if v < MinVolume then MinVolume else v) > MaxVolume
        then MaxVolume else if v < MinVolume then MinVolume else v },
      setPlayer_lookup_self _ _ _, rfl⟩

/-- Witness for C10 on a concrete client whose single node is down. -/
theorem C10_witness :
    ((pause (initialState [nodeDown]) "g" true).result
        = Except.error "no available nodes" ∧
      ∃ p', (pause (initialState [nodeDown]) "g" true).state.players "g" = some p' ∧
        p'.isPaused = true) ∧
    ((stop (initialState [nodeDown]) "g").result = Except.error "no available nodes" ∧
      ∃ p', (stop (initialState [nodeDown]) "g").state.players "g" = some p' ∧
        p'.isPlaying = false ∧ p'.currentTrack = none ∧ p'.queue = []) ∧
    ((setVolume (initialState [nodeDown]) "g" 5000).result
        = Except.error "no available nodes" ∧
      ∃ p', (setVolume (initialState [nodeDown]) "g" 5000).state.players "g" = some p' ∧
        p'.volume = (if ((5000 : Int) < MinVolume) then MinVolume
          else if ((5000 : Int) > MaxVolume) then MaxVolume else (5000 : Int))) := by
  have h := C10_error_still_updates_state (initialState [nodeDown]) "g" true 5000 (by decide)
  simpa using h

/-- C5: SetVolume stores and sends the clamped volume — below MinVolume
becomes MinVolume, above MaxVolume becomes MaxVolume, in-range input is
stored unchanged, every call sent carries the stored value — and in
every reachable state each player's volume lies in [MinVolume,
MaxVolume]. -/
theorem C5_volume_clamped (st : ClientState) (g : String) (v : Int) (h : Reachable st) :
    (∃ p', (setVolume st g v).state.players g = some p' ∧
      p'.volume = (if (if v < MinVolume then MinVolume else v) > MaxVolume then MaxVolume
        else if v < MinVolume then MinVolume else v) ∧
      MinVolume ≤ p'.volume ∧ p'.volume ≤ MaxVolume ∧
      (MinVolume ≤ v → v ≤ MaxVolume → p'.volume = v) ∧
      ∀ c ∈ (setVolume st g v).calls, c = RestCall.updatePlayer g { volume := some p'.volume }) ∧
    (∀ p, st.players g = some p → MinVolume ≤ p.volume ∧ p.volume ≤ MaxVolume) := by
  constructor
  · refine ⟨{ (getPlayer st g).1 with
        volume := if (if v < MinVolume then MinVolume else v) > MaxVolume then MaxVolume
          else if v < MinVolume then MinVolume else v },
      setPlayer_lookup_self _ _ _, rfl, ?_, ?_, ?_, ?_⟩
    · show MinVolume ≤ (if (if v < MinVolume then MinVolume else v) > MaxVolume then MaxVolume
        else if v < MinVolume then MinVolume else v)
      simp only [MinVolume, MaxVolume]
      split_ifs <;> omega
    · show (if (if v < MinVolume then MinVolume else v) > MaxVolume then MaxVolume
        else if v < MinVolume then MinVolume else v) ≤ MaxVolume
      simp only [MinVolume, MaxVolume]
      split_ifs <;> omega
    · intro h1 h2
      show (if (if v < MinVolume then MinVolume else v) > MaxVolume then MaxVolume
        else if v < MinVolume then MinVolume else v) = v
      simp only [MinVolume, MaxVolume] at h1 h2 ⊢
      split_ifs <;> omega
    · exact tryNodesUpdate_calls
  · intro p hp
    exact ((reachable_inv h).1 g p hp).2

/-- Witness for C5: input 5000 is stored as 1000. -/
theorem C5_witness :
    ∃ p', (setVolume (initialState []) "g" 5000).state.players "g" = some p' ∧
      p'.volume = 1000 := by
  obtain ⟨⟨p', h1, h2, _⟩, _⟩ :=
    C5_volume_clamped (initialState []) "g" 5000 (Reachable.init [])
  refine ⟨p', h1, ?_⟩
  rw [h2]
  norm_num [MinVolume, MaxVolume]

/-- C9: in every reachable state at most one live progress ticker exists
per guild; startProgressUpdates leaves exactly one (cancelling any
previous one first) and stopProgressUpdates leaves none and clears the
registry entry. -/
theorem C9_single_ticker_per_guild (st : ClientState) (h : Reachable st) :
    (∀ g, (liveFor st g).length ≤ 1) ∧
    (∀ g, (liveFor (startProgressUpdates st g) g).length = 1) ∧
    (∀ g, liveFor (stopProgressUpdates st g) g = [] ∧
      (stopProgressUpdates st g).progressTickers g = none) := by
  have hI := (reachable_inv h).2
  refine ⟨?_, ?_, ?_⟩
  · intro g
    rw [hI.2.2 g]
    cases st.progressTickers g <;> simp [tickList]
  · intro g
    have h2 := (tickInv_startProgress hI g).2.2 g
    rw [startProgress_tickers_self] at h2
    rw [h2]
    rfl
  · intro g
    have h2 := (tickInv_stopProgress hI g).2.2 g
    rw [stopProgress_tickers_self] at h2
    exact ⟨h2, stopProgress_tickers_self st g⟩

/-- Witness for C9 on a concrete reachable state. -/
theorem C9_witness :
    (liveFor (initialState []) "g").length ≤ 1 ∧
    (liveFor (startProgressUpdates (initialState []) "g") "g").length = 1 ∧
    liveFor (stopProgressUpdates (initialState []) "g") "g" = [] := by
  have h := C9_single_ticker_per_guild (initialState []) (Reachable.init [])
  exact ⟨h.1 "g", h.2.1 "g", (h.2.2 "g").1⟩

theorem newPlayer_queue (g : String) : (newPlayer g).queue = [] := rfl

/-- C4: on a guild whose queue is empty (or whose player does not exist
yet, in which case GetPlayer creates it with an empty queue), Skip is
the same operation as Stop: identical final state, identical ticker
cancellation, identical REST calls, identical error return. -/
theorem C4_skip_empty_is_stop (st : ClientState) (g : String)
    (hq : ∀ p, st.players g = some p → p.queue = []) :
    skip st g = stop st g := by
  cases hpg : st.players g with
  | some p =>
    have hq0 : p.queue = [] := hq p hpg
    simp only [skip, getPlayer_some hpg, hq0]
  | none =>
    have h1 : (setPlayer st g (newPlayer g)).players g = some (newPlayer g) :=
      setPlayer_lookup_self _ _ _
    simp only [skip, getPlayer_none hpg, newPlayer_queue]
    simp only [stop, getPlayer_some h1, getPlayer_none hpg]

/-- Witness for C4 on a concrete state holding an empty-queue player. -/
theorem C4_witness :
    skip (applyOp (initialState []) (Op.getPlayerOp "g")) "g"
      = stop (applyOp (initialState []) (Op.getPlayerOp "g")) "g" :=
  C4_skip_empty_is_stop _ "g" (by
    intro p hp
    rw [show (applyOp (initialState []) (Op.getPlayerOp "g")).players "g"
          = some (newPlayer "g") from by decide] at hp
    injection hp with h
    subst h
    rfl)

/-- C8: a playerUpdate frame carrying a guildId and a state position
overwrites only the position of an existing player for that guild and
changes nothing else; when no player exists for the guild the whole
client state is unchanged. -/
theorem C8_player_update_frame (st : ClientState) (f : PlayerUpdateFrame) (g : String)
    (s : PlayerUpdateState) (pos : Int)
    (hg : f.guildId = some g) (hs : f.state = some s) (hpos : s.position = some pos) :
    (∀ p, st.players g = some p →
      handlePlayerUpdate st f = setPlayer st g { p with position := pos }) ∧
    (st.players g = none → handlePlayerUpdate st f = st) := by
  constructor
  · intro p hp
    simp [handlePlayerUpdate, hg, hs, hp, hpos]
  · intro hp
    simp [handlePlayerUpdate, hg, hs, hp]

/-- Witness for C8 on a concrete frame and player. -/
theorem C8_witness :
    handlePlayerUpdate (applyOp (initialState []) (Op.getPlayerOp "g"))
        { guildId := some "g", state := some { position := some 42 } }
      = setPlayer (applyOp (initialState []) (Op.getPlayerOp "g")) "g"
          { newPlayer "g" with position := 42 } :=
  (C8_player_update_frame _ _ "g" { position := some 42 } 42 rfl rfl rfl).1
    (newPlayer "g") (by decide)

theorem play_playing_eq {st : ClientState} {g : String} {p : Player}
    (hpg : st.players g = some p) (hpl : p.isPlaying = true)
    (vc tc : String) (t : Track) :
    play st g vc tc t =
      { state := setPlayer st g
          { p with voiceChannel := vc, textChannelID := tc, queue := p.queue ++ [t] }
        calls := []
        result := Except.ok () } := by
  simp only [play, getPlayer_some hpg]
  rw [if_pos hpl]

theorem trackEnd_cons_eq {st : ClientState} {g : String} {p : Player}
    {t0 : Track} {rest : List Track}
    (hpg : st.players g = some p) (hq : p.queue = t0 :: rest) :
    handleTrackEnd st g =
      (setPlayer (stopProgressUpdates st g) g { p with queue := rest, currentTrack := some t0 },
       (tryNodesUpdate st.nodes g { track := some (some t0.encoded) }).1) := by
  have hpg' : (stopProgressUpdates st g).players g = some p := by
    rw [stopProgress_players]; exact hpg
  simp only [handleTrackEnd, getPlayer_some hpg', hq, setPlayer_nodes, stopProgress_nodes]

theorem trackEnd_nil_eq {st : ClientState} {g : String} {p : Player}
    (hpg : st.players g = some p) (hq : p.queue = []) :
    handleTrackEnd st g =
      (setPlayer (stopProgressUpdates st g) g
        { p with isPlaying := false, currentTrack := none }, []) := by
  have hpg' : (stopProgressUpdates st g).players g = some p := by
    rw [stopProgress_players]; exact hpg
  simp only [handleTrackEnd, getPlayer_some hpg', hq]

theorem skip_cons_eq {st : ClientState} {g : String} {p : Player}
    {t0 : Track} {rest : List Track}
    (hpg : st.players g = some p) (hq : p.queue = t0 :: rest) :
    skip st g =
      { state := setPlayer st g { p with queue := rest, currentTrack := some t0 }
        calls := (tryNodesUpdate st.nodes g { track := some (some t0.encoded) }).1
        result := if (tryNodesUpdate st.nodes g { track := some (some t0.encoded) }).2
          then Except.ok () else Except.error "no available nodes" } := by
  simp only [skip, getPlayer_some hpg, hq, setPlayer_nodes]

/-- C3: on TrackEndEvent the guild's progress-ticker entry is removed;
with a non-empty queue the head becomes currentTrack, the queue shrinks
by exactly one, and (when a usable node exists) exactly one updatePlayer
call carrying that track's encoded blob is issued; with an empty queue
the player transitions to Idle (isPlaying false, no current track) and
no call is issued. -/
theorem C3_track_end_dispatch (st : ClientState) (g : String) (p : Player)
    (hpg : st.players g = some p) :
    (handleTrackEnd st g).1.progressTickers g = none ∧
    (∀ t0 rest, p.queue = t0 :: rest →
      ∃ p', (handleTrackEnd st g).1.players g = some p' ∧
        p'.currentTrack = some t0 ∧ p'.queue = rest ∧
        p'.queue.length + 1 = p.queue.length ∧
        ((∃ n ∈ st.nodes, nodeUsable n = true) →
          (handleTrackEnd st g).2 =
            [RestCall.updatePlayer g { track := some (some t0.encoded) }])) ∧
    (p.queue = [] →
      ∃ p', (handleTrackEnd st g).1.players g = some p' ∧
        p'.isPlaying = false ∧ p'.currentTrack = none ∧ (handleTrackEnd st g).2 = []) := by
  refine ⟨?_, ?_, ?_⟩
  · cases hq : p.queue with
    | nil =>
      rw [trackEnd_nil_eq hpg hq]
      exact stopProgress_tickers_self st g
    | cons t0 rest =>
      rw [trackEnd_cons_eq hpg hq]
      exact stopProgress_tickers_self st g
  · intro t0 rest hq
    rw [trackEnd_cons_eq hpg hq]
    refine ⟨_, setPlayer_lookup_self _ _ _, rfl, rfl, ?_, ?_⟩
    · simp [hq]
    · intro hn
      rw [tryNodesUpdate_of_usable _ _ hn]
  · intro hq
    rw [trackEnd_nil_eq hpg hq]
    exact ⟨_, setPlayer_lookup_self _ _ _, rfl, rfl, rfl⟩

/-- Witness for C3 on the demo client (trackA playing, trackB queued). -/
theorem C3_witness :
    ∃ p', (handleTrackEnd demoPlaying "g").1.players "g" = some p' ∧
      p'.currentTrack = some trackB ∧ p'.queue = [] ∧
      p'.queue.length + 1 = demoPlayer.queue.length ∧
      ((∃ n ∈ demoPlaying.nodes, nodeUsable n = true) →
        (handleTrackEnd demoPlaying "g").2 =
          [RestCall.updatePlayer "g" { track := some (some trackB.encoded) }]) :=
  (C3_track_end_dispatch demoPlaying "g" demoPlayer (by decide)).2.1 trackB [] (by decide)

/-- C6: while a guild is playing, Play appends to the queue tail leaving
currentTrack unchanged; both dequeues (track-end auto-advance and Skip)
pop the queue head into currentTrack; consequently enqueuing A, B, C by
three Play calls and delivering three TrackEndEvents plays A, then B,
then C. -/
theorem C6_queue_fifo (st : ClientState) (g vc tc : String) (t : Track) (p : Player)
    (hpg : st.players g = some p) (hpl : p.isPlaying = true) :
    (∃ p', (play st g vc tc t).state.players g = some p' ∧
      p'.queue = p.queue ++ [t] ∧ p'.currentTrack = p.currentTrack) ∧
    (∀ t0 rest, p.queue = t0 :: rest →
      (∃ p', (handleTrackEnd st g).1.players g = some p' ∧
        p'.currentTrack = some t0 ∧ p'.queue = rest) ∧
      (∃ p', (skip st g).state.players g = some p' ∧
        p'.currentTrack = some t0 ∧ p'.queue = rest)) ∧
    (∀ A B C : Track, p.queue = [] →
      ∃ p1 p2 p3,
        (endN (playThree st g vc tc A B C) g 1).players g = some p1 ∧
        p1.currentTrack = some A ∧
        (endN (playThree st g vc tc A B C) g 2).players g = some p2 ∧
        p2.currentTrack = some B ∧
        (endN (playThree st g vc tc A B C) g 3).players g = some p3 ∧
        p3.currentTrack = some C) := by
  refine ⟨?_, ?_, ?_⟩
  · rw [play_playing_eq hpg hpl]
    exact ⟨_, setPlayer_lookup_self _ _ _, rfl, rfl⟩
  · intro t0 rest hq
    constructor
    · rw [trackEnd_cons_eq hpg hq]
      exact ⟨_, setPlayer_lookup_self _ _ _, rfl, rfl⟩
    · rw [skip_cons_eq hpg hq]
      exact ⟨_, setPlayer_lookup_self _ _ _, rfl, rfl⟩
  · intro A B C hq0
    have hpg1 : (play st g vc tc A).state.players g
        = some { p with voiceChannel := vc, textChannelID := tc, queue := p.queue ++ [A] } := by
      rw [play_playing_eq hpg hpl]
      exact setPlayer_lookup_self _ _ _
    have hpg2 : (play (play st g vc tc A).state g vc tc B).state.players g
        = some { p with
            voiceChannel := vc, textChannelID := tc
            queue := (p.queue ++ [A]) ++ [B] } := by
      rw [play_playing_eq hpg1 hpl]
      exact setPlayer_lookup_self _ _ _
    have hpg3 : (playThree st g vc tc A B C).players g
        = some { p with
            voiceChannel := vc, textChannelID := tc
            queue := ((p.queue ++ [A]) ++ [B]) ++ [C] } := by
      simp only [playThree]
      rw [play_playing_eq hpg2 hpl]
      exact setPlayer_lookup_self _ _ _
    have hq3 : ({ p with
        voiceChannel := vc, textChannelID := tc
        queue := ((p.queue ++ [A]) ++ [B]) ++ [C] } : Player).queue = A :: [B, C] := by
      show ((p.queue ++ [A]) ++ [B]) ++ [C] = A :: [B, C]
      rw [hq0]
      rfl
    have hpg4 : (endN (playThree st g vc tc A B C) g 1).players g
        = some { p with
            voiceChannel := vc, textChannelID := tc
            currentTrack := some A, queue := [B, C] } := by
      show (handleTrackEnd (playThree st g vc tc A B C) g).1.players g = _
      rw [trackEnd_cons_eq hpg3 hq3]
      exact setPlayer_lookup_self _ _ _
    have hq4 : ({ p with
        voiceChannel := vc, textChannelID := tc
        currentTrack := some A, queue := [B, C] } : Player).queue = B :: [C] := rfl
    have hpg5 : (endN (playThree st g vc tc A B C) g 2).players g
        = some { p with
            voiceChannel := vc, textChannelID := tc
            currentTrack := some B, queue := [C] } := by
      show (handleTrackEnd (endN (playThree st g vc tc A B C) g 1) g).1.players g = _
      rw [trackEnd_cons_eq hpg4 hq4]
      exact setPlayer_lookup_self _ _ _
    have hq5 : ({ p with
        voiceChannel := vc, textChannelID := tc
        currentTrack := some B, queue := [C] } : Player).queue = C :: [] := rfl
    have hpg6 : (endN (playThree st g vc tc A B C) g 3).players g
        = some { p with
            voiceChannel := vc, textChannelID := tc
            currentTrack := some C, queue := [] } := by
      show (handleTrackEnd (endN (playThree st g vc tc A B C) g 2) g).1.players g = _
      rw [trackEnd_cons_eq hpg5 hq5]
      exact setPlayer_lookup_self _ _ _
    exact ⟨_, _, _, hpg4, rfl, hpg5, rfl, hpg6, rfl⟩

/-- Witness for C6: the A, B, C playback order on the demo client. -/
theorem C6_witness :
    ∃ p1 p2 p3,
      (endN (playThree demoOne "g" "v" "t" trackA trackB trackC) "g" 1).players "g" = some p1 ∧
      p1.currentTrack = some trackA ∧
      (endN (playThree demoOne "g" "v" "t" trackA trackB trackC) "g" 2).players "g" = some p2 ∧
      p2.currentTrack = some trackB ∧
      (endN (playThree demoOne "g" "v" "t" trackA trackB trackC) "g" 3).players "g" = some p3 ∧
      p3.currentTrack = some trackC :=
  (C6_queue_fifo demoOne "g" "v" "t" trackA demoOnePlayer (by decide) (by decide)).2.2
    trackA trackB trackC (by decide)

/-- C7 counterexample: with a usable node, delivering the voice-server
half first and the voice-session half second leaves both halves
delivered yet issues no updatePlayer call at all — the token/endpoint
half is dropped rather than buffered — contradicting the claim that
whichever half arrives first is buffered and that exactly one voice call
is issued once both halves are present. -/
theorem C7_counterexample :
    nodeUsable nodeOk = true ∧
    (runVoice demoDiscord (initialState [nodeOk])
      [VoiceEvent.serverEv "g" "tok" "ep", VoiceEvent.sessionEv "g" "me" "sid"]).2 = [] := by
  decide

/-- C7 amended: the session half is the only buffered half (it lives in
the platform cache); no voice call is issued before it is present — the
session handler itself never issues a call and a voice-server event that
finds no cached session issues none and drops its token/endpoint half —
and once the session half is cached, each voice-server event with a
usable node issues exactly one updatePlayer call with sessionId, token
and endpoint all populated. -/
theorem C7_voice_correlation (ds : DiscordState) (st : ClientState)
    (v : VoiceServerUpdateEvent) (gs : GuildState) (vs : VoiceStateEntry)
    (hg : findGuild ds v.guildID = some gs)
    (hvs : gs.voiceStates.find? (fun x => x.userID == ds.botUserID) = some vs)
    (hnode : ∃ n ∈ st.nodes, nodeUsable n = true) :
    voiceServerUpdate ds st v =
      [RestCall.updatePlayer v.guildID
        { voice := some { sessionId := vs.sessionID, token := v.token, endpoint := v.endpoint } }] ∧
    (∀ ds' st' w, voiceStateUpdate ds' st' w = []) ∧
    (∀ ds' st' w gs', findGuild ds' w.guildID = some gs' →
      gs'.voiceStates.find? (fun x => x.userID == ds'.botUserID) = none →
      voiceServerUpdate ds' st' w = []) := by
  refine ⟨?_, ?_, ?_⟩
  · simp only [voiceServerUpdate, hg, hvs]
    rw [tryNodesUpdate_of_usable _ _ hnode]
  · intro ds' st' w
    simp [voiceStateUpdate]
  · intro ds' st' w gs' hg' hn'
    simp [voiceServerUpdate, hg', hn']

/-- Witness for the amended C7: session half cached, then a server event
issues the one fully populated voice call. -/
theorem C7_witness :
    voiceServerUpdate
      { botUserID := "me"
        guilds := [{ id := "g", voiceStates := [{ userID := "me", sessionID := "sid" }] }] }
      (initialState [nodeOk]) { guildID := "g", token := "tok", endpoint := "ep" }
      = [RestCall.updatePlayer "g"
          { voice := some { sessionId := "sid", token := "tok", endpoint := "ep" } }] :=
  (C7_voice_correlation
    { botUserID := "me"
      guilds := [{ id := "g", voiceStates := [{ userID := "me", sessionID := "sid" }] }] }
    (initialState [nodeOk]) { guildID := "g", token := "tok", endpoint := "ep" }
    { id := "g", voiceStates := [{ userID := "me", sessionID := "sid" }] }
    { userID := "me", sessionID := "sid" } (by decide) (by decide) (by decide)).1

end PancyLavalink
